import Mathlib

/-!
Shallow embedding of the author identity resolution engine of
`src/app/api/api_v1/authors.py` (class `AuthorSearchService`), together with
proofs about its merge, name-matching, normalization and scoring behaviour.

Modelling conventions:
* Python `str` is modelled as `List Char` (`Str`); ASCII lower-casing is
  assumed (`Char.toLower`).
* A Python value that may be `None` is an `Option`.
* A provider result that was an exception instance or an empty dict (both are
  dropped by the `valid_results` filter in `_merge_author_data`) is `none`;
  a non-empty dict is `some` of a record of its optional fields.
* Python float arithmetic on the score is modelled exactly over `ℚ`
  (all values involved are small decimal fractions).
* `datetime.now()` is passed in as an explicit `now` argument.
* Python set values (`fields_of_study`, `sources` dedup) are modelled as
  lists in first-insertion order; no claim depends on set iteration order.
-/

/-- Python `str`, modelled as a list of characters. -/
abbrev Str := List Char

/-- Python truthiness of a `None`-able string: `None` and `""` are falsy. -/
def strTruthy : Option Str → Bool
  | none => false
  | some s => !s.isEmpty

/-- Python truthiness of a `None`-able int: `None` and `0` are falsy. -/
def intTruthy : Option Int → Bool
  | none => false
  | some n => n != 0

/-- Python `a or b` on `None`-able strings. -/
def pyOrStr (a b : Option Str) : Option Str :=
  if strTruthy a then a else b

/-- Python `s.lower()` (ASCII). -/
def pyLower (s : Str) : Str := s.map Char.toLower

/-- Python `s.replace(".", "")`. -/
def stripPeriods (s : Str) : Str := s.filter (fun c => c ≠ '.')

/-- Python `s.strip()`: drop leading and trailing whitespace. -/
def pyStrip (s : Str) : Str :=
  ((s.dropWhile Char.isWhitespace).reverse.dropWhile Char.isWhitespace).reverse

/-- The `norm` helper of `_pick_best_name_match`:
`(n or "").lower().replace(".", "").strip()`. -/
def normName (n : Option Str) : Str :=
  pyStrip (stripPeriods (pyLower (n.getD [])))

/-- Python substring containment `a in b` (for strings). -/
def pyIn (a b : Str) : Bool := b.tails.any (fun t => a.isPrefixOf t)

/-- Python `s.split(sep)` for a one-character separator. -/
def pySplit (sep : Char) : Str → List Str
  | [] => [[]]
  | c :: cs =>
    let r := pySplit sep cs
    if c = sep then [] :: r
    else
      match r with
      | [] => [[c]]
      | seg :: rest => (c :: seg) :: rest

/-- Python `s.split(sep)[-1]`: the segment after the last separator. -/
def splitLast (sep : Char) (s : Str) : Str := (pySplit sep s).getLastD []

/-- Python `s.isdigit()` (ASCII digits; `False` on the empty string). -/
def pyIsdigit (s : Str) : Bool := !s.isEmpty && s.all Char.isDigit

/-- `Option.orElse` without the thunk, used to state results of
`_pick_best_name_match`. -/
def optOr {α : Type} (a b : Option α) : Option α :=
  match a with
  | some x => some x
  | none => b

/-- One provider-native candidate dict, restricted to the keys
`_pick_best_name_match` reads (per provider shape). -/
structure Candidate where
  name : Option Str := none
  aliases : List Str := []
  display_name : Option Str := none
  display_name_alternatives : List Str := []
  author : Option Str := none
deriving DecidableEq

/-- The name strings `_pick_best_name_match` collects for one candidate:
primary name plus aliases (per provider flag), then `[n for n in names if n]`
(falsy names dropped). -/
def candNames (s2 openalex dblp : Bool) (c : Candidate) : List Str :=
  let raw : List (Option Str) :=
    if s2 then c.name :: c.aliases.map some
    else if openalex then c.display_name :: c.display_name_alternatives.map some
    else if dblp then [pyOrStr c.author c.name]
    else [c.name]
  raw.filterMap (fun n => if strTruthy n then n else none)

/-- `any(norm(n) == t for n in names)`. -/
def exactMatch (t : Str) (names : List Str) : Bool :=
  names.any (fun n => decide (normName (some n) = t))

/-- `any(t in norm(n) or norm(n) in t for n in names)`. -/
def substrMatch (t : Str) (names : List Str) : Bool :=
  names.any (fun n => pyIn t (normName (some n)) || pyIn (normName (some n)) t)

/-- The candidate loop of `_pick_best_name_match`, with the running `best`
as an accumulator. An exact name match returns immediately (`break`); a
substring match is recorded only when `best` is not yet set; a candidate with
no usable names is skipped (`continue`). -/
def pickBestLoop (t : Str) (s2 oa db : Bool) :
    List Candidate → Option Candidate → Option Candidate
  | [], best => best
  | c :: cs, best =>
    let names := candNames s2 oa db c
    if names.isEmpty then pickBestLoop t s2 oa db cs best
    else if exactMatch t names then some c
    else if best.isNone && substrMatch t names then pickBestLoop t s2 oa db cs (some c)
    else pickBestLoop t s2 oa db cs best

/-- `_pick_best_name_match`: run the loop, then
`return best or (candidates[0] if candidates else None)`.
(Any candidate stored in `best` has a non-empty name list, hence is a
non-empty — truthy — dict, so Python's `or` coincides with `Option` choice.) -/
def pick_best_name_match (target : Str) (cands : List Candidate)
    (s2 oa db : Bool) : Option Candidate :=
  let t := normName (some target)
  match pickBestLoop t s2 oa db cands none with
  | some b => some b
  | none => cands.head?

/-- One affiliation dict. -/
structure Affiliation where
  institution_id : Option Str := none
  institution_name : Option Str := none
  country : Option Str := none
  start_date : Option Str := none
  end_date : Option Str := none
deriving DecidableEq

/-- The dedup key of the affiliation dedup pass:
`(aff.get("institution_id") or "", aff.get("institution_name") or "",
aff.get("country") or "")`. -/
def affKey (a : Affiliation) : Str × Str × Str :=
  (a.institution_id.getD [], a.institution_name.getD [], a.country.getD [])

/-- One non-empty provider result dict, restricted to the keys
`_merge_author_data` reads. A missing key and a key whose value is `None`
are observationally identical to `dict.get`, so both are `none`. -/
structure PartialRecord where
  name : Option Str := none
  author_id : Option Str := none
  orcid : Option Str := none
  affiliations : List Affiliation := []
  homepage_url : Option Str := none
  email : Option Str := none
  h_index : Option Int := none
  paper_count : Option Int := none
  citation_count : Option Int := none
  fields_of_study : List Str := []
  profile_image_url : Option Str := none
  sources : List Str := []
deriving DecidableEq

/-- The merged author profile (the `merged` dict of `_merge_author_data`,
after finalization). `paper_count` and `citation_count` are always ints in
the code (initialized to `0`), `h_index` may stay `None`. -/
structure MergedProfile where
  name : Str
  author_id : Option Str
  orcid : Option Str
  affiliations : List Affiliation
  homepage_url : Option Str
  email : Option Str
  h_index : Option Int
  paper_count : Int
  citation_count : Int
  fields_of_study : List Str
  profile_image_url : Option Str
  last_updated : Str
  sources : List Str
  confidence_score : ℚ
deriving DecidableEq

/-- Python `set.update` modelled in first-insertion order. -/
def setUpdate (acc : List Str) (new : List Str) : List Str :=
  new.foldl (fun a s => if s ∈ a then a else a ++ [s]) acc

/-- Python `list({x for x in l})` modelled in first-insertion order. -/
def pyDedup (l : List Str) : List Str :=
  l.foldl (fun acc s => if s ∈ acc then acc else acc ++ [s]) []

/-- Python `max(l)` on a list of ints (`None` on the empty list, where the
Python call would not be made). -/
def pymax : List Int → Option Int
  | [] => none
  | x :: xs => some (xs.foldl max x)

/-- State of the merge loop of `_merge_author_data`: the partially filled
`merged` dict plus the three collected count lists. -/
structure MergeState where
  author_id : Option Str := none
  orcid : Option Str := none
  homepage_url : Option Str := none
  profile_image_url : Option Str := none
  affiliations : List Affiliation := []
  fields_of_study : List Str := []
  sources : List Str := []
  paper_counts : List Int := []
  citation_counts : List Int := []
  h_indices : List Int := []

/-- One iteration of the merge loop of `_merge_author_data` on a valid
result: extend sources, collect int-valued counts, first-truthy-wins for the
four identifier/url fields, extend affiliations, set-update fields of study. -/
def mergeStep (st : MergeState) (r : PartialRecord) : MergeState :=
  { author_id :=
      if !strTruthy st.author_id && strTruthy r.author_id then r.author_id
      else st.author_id
    orcid :=
      if !strTruthy st.orcid && strTruthy r.orcid then r.orcid else st.orcid
    homepage_url :=
      if !strTruthy st.homepage_url && strTruthy r.homepage_url then
        r.homepage_url
      else st.homepage_url
    profile_image_url :=
      if !strTruthy st.profile_image_url && strTruthy r.profile_image_url then
        r.profile_image_url
      else st.profile_image_url
    affiliations :=
      if r.affiliations.isEmpty then st.affiliations
      else st.affiliations ++ r.affiliations
    fields_of_study :=
      if r.fields_of_study.isEmpty then st.fields_of_study
      else setUpdate st.fields_of_study r.fields_of_study
    sources := st.sources ++ r.sources
    paper_counts := st.paper_counts ++ r.paper_count.toList
    citation_counts := st.citation_counts ++ r.citation_count.toList
    h_indices := st.h_indices ++ r.h_index.toList }

/-- The affiliation dedup pass of `_merge_author_data` (`seen` is the set of
keys already emitted). -/
def dedupGo (seen : List (Str × Str × Str)) : List Affiliation → List Affiliation
  | [] => []
  | a :: rest =>
    let k := affKey a
    if k ∈ seen then dedupGo seen rest
    else a :: dedupGo (k :: seen) rest

/-- `if merged["affiliations"]: ... dedup ...` starting from an empty seen set. -/
def dedupAffs (l : List Affiliation) : List Affiliation := dedupGo [] l

/-- The fixed authoritative-source tags of the confidence score:
`{"openalex", "semantic_scholar", "dblp"}`. -/
def authoritative : List Str :=
  ["openalex".toList, "semantic_scholar".toList, "dblp".toList]

/-- `len({s for s in merged["sources"] if s in {...}})`. -/
def numProfileSources (sources : List Str) : Nat :=
  (pyDedup (sources.filter (fun s => decide (s ∈ authoritative)))).length

/-- The accumulated confidence score of `_merge_author_data` before the final
clamp and rounding: `0.3 * min(len(profile_sources), 2)` plus `0.2` for a
truthy paper count, `0.2` for a truthy citation count, `0.1` for a truthy
orcid and `0.1` for a truthy h-index. -/
def rawScore (sources : List Str) (paper_count citation_count : Int)
    (orcid : Option Str) (h_index : Option Int) : ℚ :=
  0.3 * ((min (numProfileSources sources) 2 : ℕ) : ℚ)
    + (if paper_count ≠ 0 then 0.2 else 0)
    + (if citation_count ≠ 0 then 0.2 else 0)
    + (if strTruthy orcid then 0.1 else 0)
    + (if intTruthy h_index then 0.1 else 0)

/-- Python `round(x, 2)`. Every reachable score is a multiple of `1/10`, so
round-half-to-even and round-half-up agree on all reachable inputs. -/
def round2 (q : ℚ) : ℚ := ((round (q * 100) : ℤ) : ℚ) / 100

/-- `merged["confidence_score"] = round(min(score, 1.0), 2)`. -/
def confidence (sources : List Str) (paper_count citation_count : Int)
    (orcid : Option Str) (h_index : Option Int) : ℚ :=
  round2 (min (rawScore sources paper_count citation_count orcid h_index) 1)

/-- `_merge_author_data(name, results)`. `results` holds `none` for an
exception instance or an empty dict (both dropped by the `valid_results`
filter); `now` stands for `datetime.now().isoformat()`. -/
def merge_author_data (name now : Str)
    (results : List (Option PartialRecord)) : MergedProfile :=
  let valid := results.filterMap id
  let st := valid.foldl mergeStep {}
  let paper_count := (pymax st.paper_counts).getD 0
  let citation_count := (pymax st.citation_counts).getD 0
  let h_index := pymax st.h_indices
  let affs :=
    if st.affiliations.isEmpty then st.affiliations
    else dedupAffs st.affiliations
  let sources := pyDedup st.sources
  { name := name
    author_id := st.author_id
    orcid := st.orcid
    affiliations := affs
    homepage_url := st.homepage_url
    email := none
    h_index := h_index
    paper_count := paper_count
    citation_count := citation_count
    fields_of_study := st.fields_of_study
    profile_image_url := st.profile_image_url
    last_updated := now
    sources := sources
    confidence_score := confidence sources paper_count citation_count st.orcid h_index }

/-- `_normalize_identifiers` on `author_id`: if the value is a string
containing `"openalex.org/"`, keep only the part after the last `"/"`. -/
def normAid (a : Option Str) : Option Str :=
  match a with
  | none => none
  | some aid =>
    if pyIn "openalex.org/".toList aid then some (splitLast '/' aid)
    else some aid

/-- `_normalize_identifiers` on `orcid`: if the value is a string containing
`"/"`, keep only the part after the last `"/"`. -/
def normOrcid (a : Option Str) : Option Str :=
  match a with
  | none => none
  | some oc =>
    if pyIn ['/'] oc then some (splitLast '/' oc)
    else some oc

/-- `_normalize_identifiers(data)`: copy the dict and rewrite only
`author_id` and `orcid`. -/
def normalize_identifiers (p : MergedProfile) : MergedProfile :=
  { p with author_id := normAid p.author_id, orcid := normOrcid p.orcid }

/-- A merged profile re-read as a result dict by a later
`_merge_author_data(name, [merged_profile, details])` call (the enrichment
merge-backs); `paper_count`/`citation_count` are always ints there. -/
def profileAsPartial (p : MergedProfile) : PartialRecord :=
  { name := some p.name
    author_id := p.author_id
    orcid := p.orcid
    affiliations := p.affiliations
    homepage_url := p.homepage_url
    email := p.email
    h_index := p.h_index
    paper_count := some p.paper_count
    citation_count := some p.citation_count
    fields_of_study := p.fields_of_study
    profile_image_url := p.profile_image_url
    sources := p.sources }

/-- `AuthorSearchService.search_author`. The eight fan-out results are
passed in (profile batch then fallback batch, in call order); the three
detail-lookup collaborators are passed as functions returning `none` for a
failed or falsy fetch. The expression
`merged_profile.get("author_id", "").isdigit()` on line 83 reads the
always-present `author_id` key, so when no source supplied an author id the
value is `None` and `.isdigit()` raises `AttributeError`; this is modelled
as `Except.error`. -/
def search_author (name now : Str)
    (profile_results fallback_results : List (Option PartialRecord))
    (s2_details oa_details orcid_details : Str → Option PartialRecord) :
    Except String MergedProfile :=
  let merged := merge_author_data name now (profile_results ++ fallback_results)
  match merged.author_id with
  | none => Except.error "AttributeError: NoneType object has no attribute isdigit"
  | some aid0 =>
    let s2_id : Option Str := if pyIsdigit aid0 then some aid0 else none
    let merged1 :=
      match s2_id with
      | some i =>
        match s2_details i with
        | some det =>
          merge_author_data name now [some (profileAsPartial merged), some det]
        | none => merged
      | none => merged
    let aid := (pyOrStr merged1.author_id (some [])).getD []
    let openalex_id : Option Str :=
      if pyIn "openalex.org".toList aid
          || (decide (aid.head? = some 'A') && pyIsdigit (aid.drop 1)) then
        some (if pyIn ['/'] aid then splitLast '/' aid else aid)
      else none
    let merged2 :=
      if strTruthy openalex_id then
        match oa_details (openalex_id.getD []) with
        | some det =>
          merge_author_data name now [some (profileAsPartial merged1), some det]
        | none => merged1
      else merged1
    let merged3 :=
      match merged2.orcid with
      | some oc =>
        if !oc.isEmpty then
          match orcid_details (splitLast '/' oc) with
          | some det =>
            merge_author_data name now [some (profileAsPartial merged2), some det]
          | none => merged2
        else merged2
      | none => merged2
    Except.ok (normalize_identifiers merged3)

/-! ### Basic facts about `pymax` (Python `max` on an int list) -/

lemma seed_le_foldl_max (xs : List Int) (x : Int) : x ≤ xs.foldl max x := by
  induction xs generalizing x with
  | nil => exact le_refl x
  | cons z zs ih => exact le_trans (le_max_left x z) (ih (max x z))

lemma mem_le_foldl_max (xs : List Int) (x y : Int) (h : y ∈ xs) :
    y ≤ xs.foldl max x := by
  induction xs generalizing x with
  | nil => cases h
  | cons z zs ih =>
    rcases List.mem_cons.mp h with rfl | h2
    · exact le_trans (le_max_right x y) (seed_le_foldl_max zs (max x y))
    · exact ih (max x z) h2

lemma foldl_max_mem (xs : List Int) (x : Int) :
    xs.foldl max x = x ∨ xs.foldl max x ∈ xs := by
  induction xs generalizing x with
  | nil => exact Or.inl rfl
  | cons z zs ih =>
    rcases ih (max x z) with h | h
    · rcases max_choice x z with h2 | h2 <;> rw [List.foldl_cons, h, h2]
      · exact Or.inl rfl
      · exact Or.inr (List.mem_cons_self z zs)
    · exact Or.inr (List.mem_cons_of_mem z h)

lemma pymax_eq_none (l : List Int) : pymax l = none ↔ l = [] := by
  cases l <;> simp [pymax]

lemma pymax_spec (l : List Int) (h : l ≠ []) :
    ∃ m, pymax l = some m ∧ m ∈ l ∧ ∀ x ∈ l, x ≤ m := by
  cases l with
  | nil => exact absurd rfl h
  | cons x xs =>
    refine ⟨xs.foldl max x, rfl, ?_, ?_⟩
    · rcases foldl_max_mem xs x with h2 | h2
      · rw [h2]; exact List.mem_cons_self x xs
      · exact List.mem_cons_of_mem x h2
    · intro y hy
      rcases List.mem_cons.mp hy with rfl | hy2
      · exact seed_le_foldl_max xs y
      · exact mem_le_foldl_max xs x y hy2

lemma pymax_perm {l1 l2 : List Int} (h : l1.Perm l2) : pymax l1 = pymax l2 := by
  cases hl : l1 with
  | nil =>
    subst hl
    rw [List.perm_nil.mp h.symm]
  | cons x xs =>
    subst hl
    have h2 : l2 ≠ [] := by
      intro e
      subst e
      rw [List.perm_nil] at h
      exact List.cons_ne_nil x xs h
    obtain ⟨m1, e1, mem1, b1⟩ := pymax_spec (x :: xs) (List.cons_ne_nil x xs)
    obtain ⟨m2, e2, mem2, b2⟩ := pymax_spec l2 h2
    rw [e1, e2]
    exact congrArg some (le_antisymm (b2 m1 (h.subset mem1)) (b1 m2 (h.symm.subset mem2)))

/-! ### Projections of the merge loop -/

lemma foldl_paper_counts (l : List PartialRecord) (st : MergeState) :
    (l.foldl mergeStep st).paper_counts
      = st.paper_counts ++ l.filterMap (fun r => r.paper_count) := by
  induction l generalizing st with
  | nil => simp
  | cons r rest ih =>
    rw [List.foldl_cons, ih]
    cases h : r.paper_count <;>
      simp [mergeStep, List.filterMap_cons, h, Option.toList]

lemma foldl_citation_counts (l : List PartialRecord) (st : MergeState) :
    (l.foldl mergeStep st).citation_counts
      = st.citation_counts ++ l.filterMap (fun r => r.citation_count) := by
  induction l generalizing st with
  | nil => simp
  | cons r rest ih =>
    rw [List.foldl_cons, ih]
    cases h : r.citation_count <;>
      simp [mergeStep, List.filterMap_cons, h, Option.toList]

lemma foldl_h_indices (l : List PartialRecord) (st : MergeState) :
    (l.foldl mergeStep st).h_indices
      = st.h_indices ++ l.filterMap (fun r => r.h_index) := by
  induction l generalizing st with
  | nil => simp
  | cons r rest ih =>
    rw [List.foldl_cons, ih]
    cases h : r.h_index <;>
      simp [mergeStep, List.filterMap_cons, h, Option.toList]

/-- The first truthy (non-`None`, non-empty) value of a column, the value the
first-wins rule of `_merge_author_data` keeps. -/
def firstTruthyVal (l : List (Option Str)) : Option Str :=
  (l.find? strTruthy).getD none

lemma foldl_author_id (l : List PartialRecord) (st : MergeState) :
    (l.foldl mergeStep st).author_id
      = if strTruthy st.author_id then st.author_id
        else ((l.map (fun r => r.author_id)).find? strTruthy).getD st.author_id := by
  induction l generalizing st with
  | nil => cases h : strTruthy st.author_id <;> simp [h]
  | cons r rest ih =>
    rw [List.foldl_cons, ih, List.map_cons]
    cases hst : strTruthy st.author_id with
    | true =>
      have e : (mergeStep st r).author_id = st.author_id := by
        simp [mergeStep, hst]
      rw [e, hst]
      simp
    | false =>
      cases hr : strTruthy r.author_id with
      | true =>
        have e : (mergeStep st r).author_id = r.author_id := by
          simp [mergeStep, hst, hr]
        rw [e, hr, List.find?_cons_of_pos _ hr]
        simp
      | false =>
        have e : (mergeStep st r).author_id = st.author_id := by
          simp [mergeStep, hst, hr]
        rw [e, hst, List.find?_cons_of_neg _ (by simp [hr])]

lemma foldl_orcid (l : List PartialRecord) (st : MergeState) :
    (l.foldl mergeStep st).orcid
      = if strTruthy st.orcid then st.orcid
        else ((l.map (fun r => r.orcid)).find? strTruthy).getD st.orcid := by
  induction l generalizing st with
  | nil => cases h : strTruthy st.orcid <;> simp [h]
  | cons r rest ih =>
    rw [List.foldl_cons, ih, List.map_cons]
    cases hst : strTruthy st.orcid with
    | true =>
      have e : (mergeStep st r).orcid = st.orcid := by
        simp [mergeStep, hst]
      rw [e, hst]
      simp
    | false =>
      cases hr : strTruthy r.orcid with
      | true =>
        have e : (mergeStep st r).orcid = r.orcid := by
          simp [mergeStep, hst, hr]
        rw [e, hr, List.find?_cons_of_pos _ hr]
        simp
      | false =>
        have e : (mergeStep st r).orcid = st.orcid := by
          simp [mergeStep, hst, hr]
        rw [e, hst, List.find?_cons_of_neg _ (by simp [hr])]

lemma foldl_homepage_url (l : List PartialRecord) (st : MergeState) :
    (l.foldl mergeStep st).homepage_url
      = if strTruthy st.homepage_url then st.homepage_url
        else ((l.map (fun r => r.homepage_url)).find? strTruthy).getD st.homepage_url := by
  induction l generalizing st with
  | nil => cases h : strTruthy st.homepage_url <;> simp [h]
  | cons r rest ih =>
    rw [List.foldl_cons, ih, List.map_cons]
    cases hst : strTruthy st.homepage_url with
    | true =>
      have e : (mergeStep st r).homepage_url = st.homepage_url := by
        simp [mergeStep, hst]
      rw [e, hst]
      simp
    | false =>
      cases hr : strTruthy r.homepage_url with
      | true =>
        have e : (mergeStep st r).homepage_url = r.homepage_url := by
          simp [mergeStep, hst, hr]
        rw [e, hr, List.find?_cons_of_pos _ hr]
        simp
      | false =>
        have e : (mergeStep st r).homepage_url = st.homepage_url := by
          simp [mergeStep, hst, hr]
        rw [e, hst, List.find?_cons_of_neg _ (by simp [hr])]

lemma foldl_profile_image_url (l : List PartialRecord) (st : MergeState) :
    (l.foldl mergeStep st).profile_image_url
      = if strTruthy st.profile_image_url then st.profile_image_url
        else ((l.map (fun r => r.profile_image_url)).find? strTruthy).getD st.profile_image_url := by
  induction l generalizing st with
  | nil => cases h : strTruthy st.profile_image_url <;> simp [h]
  | cons r rest ih =>
    rw [List.foldl_cons, ih, List.map_cons]
    cases hst : strTruthy st.profile_image_url with
    | true =>
      have e : (mergeStep st r).profile_image_url = st.profile_image_url := by
        simp [mergeStep, hst]
      rw [e, hst]
      simp
    | false =>
      cases hr : strTruthy r.profile_image_url with
      | true =>
        have e : (mergeStep st r).profile_image_url = r.profile_image_url := by
          simp [mergeStep, hst, hr]
        rw [e, hr, List.find?_cons_of_pos _ hr]
        simp
      | false =>
        have e : (mergeStep st r).profile_image_url = st.profile_image_url := by
          simp [mergeStep, hst, hr]
        rw [e, hst, List.find?_cons_of_neg _ (by simp [hr])]

/-! ### The merged numeric fields are maxima of the collected columns -/

/-- All integer `paper_count` values supplied by valid partial records. -/
def paperVals (results : List (Option PartialRecord)) : List Int :=
  (results.filterMap id).filterMap (fun r => r.paper_count)

/-- All integer `citation_count` values supplied by valid partial records. -/
def citationVals (results : List (Option PartialRecord)) : List Int :=
  (results.filterMap id).filterMap (fun r => r.citation_count)

/-- All integer `h_index` values supplied by valid partial records. -/
def hIndexVals (results : List (Option PartialRecord)) : List Int :=
  (results.filterMap id).filterMap (fun r => r.h_index)

lemma merge_paper_count_eq (name now : Str) (results : List (Option PartialRecord)) :
    (merge_author_data name now results).paper_count
      = (pymax (paperVals results)).getD 0 := by
  simp [merge_author_data, paperVals, foldl_paper_counts]

lemma merge_citation_count_eq (name now : Str) (results : List (Option PartialRecord)) :
    (merge_author_data name now results).citation_count
      = (pymax (citationVals results)).getD 0 := by
  simp [merge_author_data, citationVals, foldl_citation_counts]

lemma merge_h_index_eq (name now : Str) (results : List (Option PartialRecord)) :
    (merge_author_data name now results).h_index = pymax (hIndexVals results) := by
  simp [merge_author_data, hIndexVals, foldl_h_indices]

lemma merge_author_id_eq (name now : Str) (results : List (Option PartialRecord)) :
    (merge_author_data name now results).author_id
      = firstTruthyVal ((results.filterMap id).map (fun r => r.author_id)) := by
  simp [merge_author_data, foldl_author_id, firstTruthyVal, strTruthy]

lemma merge_orcid_eq (name now : Str) (results : List (Option PartialRecord)) :
    (merge_author_data name now results).orcid
      = firstTruthyVal ((results.filterMap id).map (fun r => r.orcid)) := by
  simp [merge_author_data, foldl_orcid, firstTruthyVal, strTruthy]

lemma merge_homepage_url_eq (name now : Str) (results : List (Option PartialRecord)) :
    (merge_author_data name now results).homepage_url
      = firstTruthyVal ((results.filterMap id).map (fun r => r.homepage_url)) := by
  simp [merge_author_data, foldl_homepage_url, firstTruthyVal, strTruthy]

lemma merge_profile_image_url_eq (name now : Str) (results : List (Option PartialRecord)) :
    (merge_author_data name now results).profile_image_url
      = firstTruthyVal ((results.filterMap id).map (fun r => r.profile_image_url)) := by
  simp [merge_author_data, foldl_profile_image_url, firstTruthyVal, strTruthy]

lemma merge_email_eq (name now : Str) (results : List (Option PartialRecord)) :
    (merge_author_data name now results).email = none := by
  simp [merge_author_data]

/-! ### C2: first-wins merge of identifier fields -/

/-- C2 counterexample: the claim says a partial record supplying a non-null
email makes the merged email that value, but `_merge_author_data` never
copies `email` out of any result — the merged email is always `None`, even
when the only valid partial record supplies one. -/
theorem merge_email_dropped_cex :
    (merge_author_data ['n'] [] [some { email := some ['a'] }]).email = none
      ∧ ({ email := some ['a'] } : PartialRecord).email = some ['a'] := by
  exact ⟨merge_email_eq ['n'] [] _, rfl⟩

/-- C2 (amended): in `_merge_author_data`, each of `author_id`, `orcid`,
`homepage_url` and `profile_image_url` receives the first truthy (non-null
and non-empty-string) value supplied for it in input order across the valid
partial records; `email` is never merged and remains null. -/
theorem merge_first_truthy_identifiers (name now : Str)
    (results : List (Option PartialRecord)) :
    (merge_author_data name now results).author_id
        = firstTruthyVal ((results.filterMap id).map (fun r => r.author_id))
      ∧ (merge_author_data name now results).orcid
        = firstTruthyVal ((results.filterMap id).map (fun r => r.orcid))
      ∧ (merge_author_data name now results).homepage_url
        = firstTruthyVal ((results.filterMap id).map (fun r => r.homepage_url))
      ∧ (merge_author_data name now results).profile_image_url
        = firstTruthyVal ((results.filterMap id).map (fun r => r.profile_image_url))
      ∧ (merge_author_data name now results).email = none :=
  ⟨merge_author_id_eq name now results, merge_orcid_eq name now results,
    merge_homepage_url_eq name now results,
    merge_profile_image_url_eq name now results, merge_email_eq name now results⟩

/-! ### C4: merged counts are maxima, invariant under permutation -/

/-- C4: for every input list, each merged numeric field that has at least one
supplied integer value equals the maximum of the supplied values (it is one
of them and bounds them all — in particular never their sum), and all three
merged numeric fields are invariant under permutation of the input list. -/
theorem merge_counts_are_max (name now : Str)
    (results results2 : List (Option PartialRecord)) :
    (paperVals results ≠ [] →
      (merge_author_data name now results).paper_count ∈ paperVals results ∧
        ∀ v ∈ paperVals results, v ≤ (merge_author_data name now results).paper_count)
    ∧ (citationVals results ≠ [] →
      (merge_author_data name now results).citation_count ∈ citationVals results ∧
        ∀ v ∈ citationVals results,
          v ≤ (merge_author_data name now results).citation_count)
    ∧ (hIndexVals results ≠ [] →
      ∃ m, (merge_author_data name now results).h_index = some m ∧
        m ∈ hIndexVals results ∧ ∀ v ∈ hIndexVals results, v ≤ m)
    ∧ (results.Perm results2 →
      (merge_author_data name now results).paper_count
          = (merge_author_data name now results2).paper_count ∧
        (merge_author_data name now results).citation_count
          = (merge_author_data name now results2).citation_count ∧
        (merge_author_data name now results).h_index
          = (merge_author_data name now results2).h_index) := by
  refine ⟨?_, ?_, ?_, ?_⟩
  · intro h
    obtain ⟨m, e, mem, b⟩ := pymax_spec (paperVals results) h
    rw [merge_paper_count_eq, e]
    exact ⟨mem, b⟩
  · intro h
    obtain ⟨m, e, mem, b⟩ := pymax_spec (citationVals results) h
    rw [merge_citation_count_eq, e]
    exact ⟨mem, b⟩
  · intro h
    obtain ⟨m, e, mem, b⟩ := pymax_spec (hIndexVals results) h
    rw [merge_h_index_eq, e]
    exact ⟨m, rfl, mem, b⟩
  · intro h
    have hv : (results.filterMap id).Perm (results2.filterMap id) := h.filterMap id
    refine ⟨?_, ?_, ?_⟩
    · rw [merge_paper_count_eq, merge_paper_count_eq]
      simp only [paperVals]
      rw [pymax_perm (hv.filterMap (fun r => r.paper_count))]
    · rw [merge_citation_count_eq, merge_citation_count_eq]
      simp only [citationVals]
      rw [pymax_perm (hv.filterMap (fun r => r.citation_count))]
    · rw [merge_h_index_eq, merge_h_index_eq]
      simp only [hIndexVals]
      rw [pymax_perm (hv.filterMap (fun r => r.h_index))]

/-- A concrete partial record used in witnesses. -/
def recA : PartialRecord := { paper_count := some 3, citation_count := some 7, h_index := some 2 }

/-- A concrete partial record used in witnesses. -/
def recB : PartialRecord := { paper_count := some 5, citation_count := some 4, h_index := some 1 }

/-- Witness for C4 at a concrete two-record input and its transposition. -/
theorem merge_counts_are_max_witness :
    ((merge_author_data ['n'] [] [some recA, some recB]).paper_count
        ∈ paperVals [some recA, some recB] ∧
      ∀ v ∈ paperVals [some recA, some recB],
        v ≤ (merge_author_data ['n'] [] [some recA, some recB]).paper_count)
    ∧ (merge_author_data ['n'] [] [some recA, some recB]).paper_count
        = (merge_author_data ['n'] [] [some recB, some recA]).paper_count := by
  have h := merge_counts_are_max ['n'] [] [some recA, some recB] [some recB, some recA]
  exact ⟨h.1 (by decide), (h.2.2.2 (List.Perm.swap (some recB) (some recA) [])).1⟩

/-! ### C10: defaults of the numeric fields when nothing was supplied -/

/-- C10: when no valid partial record supplies an integer value for a numeric
field, `_merge_author_data` defaults asymmetrically — `paper_count` and
`citation_count` become the integer `0`, while `h_index` is `None` exactly
when no value was supplied (so a present `h_index` of `0` is distinguishable
from an absent one, which the int-typed count fields cannot express). -/
theorem merge_count_defaults (name now : Str)
    (results : List (Option PartialRecord)) :
    (paperVals results = [] → (merge_author_data name now results).paper_count = 0)
    ∧ (citationVals results = [] →
        (merge_author_data name now results).citation_count = 0)
    ∧ ((merge_author_data name now results).h_index = none
        ↔ hIndexVals results = []) := by
  refine ⟨?_, ?_, ?_⟩
  · intro h
    rw [merge_paper_count_eq, h]
    rfl
  · intro h
    rw [merge_citation_count_eq, h]
    rfl
  · rw [merge_h_index_eq]
    exact pymax_eq_none (hIndexVals results)

/-- Witness for C10 at the all-empty input. -/
theorem merge_count_defaults_witness :
    (merge_author_data ['n'] [] []).paper_count = 0
      ∧ (merge_author_data ['n'] [] []).citation_count = 0
      ∧ (merge_author_data ['n'] [] []).h_index = none := by
  have h := merge_count_defaults ['n'] [] []
  exact ⟨h.1 rfl, h.2.1 rfl, h.2.2.mpr rfl⟩

/-! ### C5: characterization of `_pick_best_name_match` -/

lemma optOr_assoc {α : Type} (a b c : Option α) :
    optOr (optOr a b) c = optOr a (optOr b c) := by
  cases a <;> rfl

lemma exactMatch_nil (t : Str) : exactMatch t [] = false := rfl

lemma substrMatch_nil (t : Str) : substrMatch t [] = false := rfl

lemma pickBestLoop_eq (t : Str) (s2 oa db : Bool) (cands : List Candidate) :
    ∀ best, pickBestLoop t s2 oa db cands best
      = optOr (cands.find? (fun c => exactMatch t (candNames s2 oa db c)))
          (optOr best
            (cands.find? (fun c => substrMatch t (candNames s2 oa db c)))) := by
  induction cands with
  | nil => intro best; cases best <;> rfl
  | cons c cs ih =>
    intro best
    simp only [pickBestLoop]
    by_cases hEx : exactMatch t (candNames s2 oa db c) = true
    · have hne : (candNames s2 oa db c).isEmpty = false := by
        cases hn : candNames s2 oa db c with
        | nil => rw [hn, exactMatch_nil] at hEx; cases hEx
        | cons a l => rfl
      have hfindEx : List.find? (fun x => exactMatch t (candNames s2 oa db x)) (c :: cs)
          = some c := List.find?_cons_of_pos _ hEx
      rw [hne, hfindEx]
      simp only [Bool.false_eq_true, if_false, hEx, if_true, optOr]
    · have hfindEx : List.find? (fun x => exactMatch t (candNames s2 oa db x)) (c :: cs)
          = List.find? (fun x => exactMatch t (candNames s2 oa db x)) cs :=
        List.find?_cons_of_neg _ (by simpa using hEx)
      by_cases hSub : substrMatch t (candNames s2 oa db c) = true
      · have hne : (candNames s2 oa db c).isEmpty = false := by
          cases hn : candNames s2 oa db c with
          | nil => rw [hn, substrMatch_nil] at hSub; cases hSub
          | cons a l => rfl
        have hfindSub : List.find? (fun x => substrMatch t (candNames s2 oa db x)) (c :: cs)
            = some c := List.find?_cons_of_pos _ hSub
        rw [hne, hfindEx, hfindSub]
        simp only [Bool.false_eq_true, if_false, hEx, hSub, Bool.and_true]
        cases best with
        | none =>
          simp only [Option.isNone_none, if_true, ih]
          rfl
        | some b =>
          simp only [Option.isNone_some, Bool.false_eq_true, if_false, ih]
          rfl
      · have hfindSub : List.find? (fun x => substrMatch t (candNames s2 oa db x)) (c :: cs)
            = List.find? (fun x => substrMatch t (candNames s2 oa db x)) cs :=
          List.find?_cons_of_neg _ (by simpa using hSub)
        rw [hfindEx, hfindSub]
        cases hn : (candNames s2 oa db c).isEmpty with
        | true => simp only [if_true, ih]
        | false =>
          simp only [Bool.false_eq_true, if_false, hEx, hSub, Bool.and_false, ih]

/-- C5: `_pick_best_name_match` returns `None` iff the candidate list is
empty, and its result is the first exact match after normalization when one
exists, otherwise the first substring match, otherwise the first candidate
as a last-resort default. -/
theorem pick_best_spec (target : Str) (cands : List Candidate) (s2 oa db : Bool) :
    (pick_best_name_match target cands s2 oa db = none ↔ cands = [])
    ∧ pick_best_name_match target cands s2 oa db
      = optOr
          (cands.find?
            (fun c => exactMatch (normName (some target)) (candNames s2 oa db c)))
          (optOr
            (cands.find?
              (fun c => substrMatch (normName (some target)) (candNames s2 oa db c)))
            cands.head?) := by
  have hmain : pick_best_name_match target cands s2 oa db
      = optOr
          (cands.find?
            (fun c => exactMatch (normName (some target)) (candNames s2 oa db c)))
          (optOr
            (cands.find?
              (fun c => substrMatch (normName (some target)) (candNames s2 oa db c)))
            cands.head?) := by
    have hdef : pick_best_name_match target cands s2 oa db
        = optOr (pickBestLoop (normName (some target)) s2 oa db cands none)
            cands.head? := by
      simp only [pick_best_name_match]
      cases pickBestLoop (normName (some target)) s2 oa db cands none <;> rfl
    rw [hdef, pickBestLoop_eq]
    have hzero : optOr (none : Option Candidate)
        (cands.find?
          (fun c => substrMatch (normName (some target)) (candNames s2 oa db c)))
        = cands.find?
            (fun c => substrMatch (normName (some target)) (candNames s2 oa db c)) := rfl
    rw [hzero, optOr_assoc]
  refine ⟨?_, hmain⟩
  rw [hmain]
  cases cands with
  | nil => simp [optOr]
  | cons c cs =>
    constructor
    · intro h
      exfalso
      revert h
      cases List.find? (fun c => exactMatch (normName (some target)) (candNames s2 oa db c)) (c :: cs) with
      | none =>
        cases List.find? (fun c => substrMatch (normName (some target)) (candNames s2 oa db c)) (c :: cs) with
        | none => simp [optOr]
        | some d => simp [optOr]
      | some d => simp [optOr]
    · intro h
      cases h

/-! ### C6/C9: `_normalize_identifiers` -/

lemma pySplit_ne_nil (sep : Char) (s : Str) : pySplit sep s ≠ [] := by
  cases s with
  | nil => simp [pySplit]
  | cons c cs =>
    by_cases h : c = sep
    · simp [pySplit, h]
    · cases hr : pySplit sep cs with
      | nil => simp [pySplit, h, hr]
      | cons seg rest => simp [pySplit, h, hr]

lemma not_mem_splitLast (sep : Char) (s : Str) : sep ∉ splitLast sep s := by
  induction s with
  | nil => simp [splitLast, pySplit]
  | cons c cs ih =>
    by_cases h : c = sep
    · have e : splitLast sep (c :: cs) = splitLast sep cs := by
        simp only [splitLast, pySplit, h, if_true]
        rw [List.getLastD_cons]
      rw [e]
      exact ih
    · cases hr : pySplit sep cs with
      | nil => exact absurd hr (pySplit_ne_nil sep cs)
      | cons seg rest =>
        have e : splitLast sep (c :: cs) = ((c :: seg) :: rest).getLastD [] := by
          simp only [splitLast, pySplit, hr, if_neg h]
        cases rest with
        | nil =>
          have hseg : splitLast sep cs = seg := by simp [splitLast, hr]
          rw [e]
          intro hmem
          rcases List.mem_cons.mp hmem with h2 | hmem2
          · exact h h2.symm
          · rw [hseg] at ih
            exact ih hmem2
        | cons seg2 rest2 =>
          have e2 : splitLast sep (c :: cs) = splitLast sep cs := by
            rw [e]
            simp only [splitLast, hr]
            simp [List.getLastD_cons]
          rw [e2]
          exact ih

lemma pyIn_eq_true_iff (a b : Str) : pyIn a b = true ↔ a <:+: b := by
  simp only [pyIn, List.any_eq_true]
  constructor
  · rintro ⟨t, ht, hp⟩
    rw [List.mem_tails] at ht
    rw [List.isPrefixOf_iff_prefix] at hp
    exact List.infix_iff_prefix_suffix.mpr ⟨t, hp, ht⟩
  · intro h
    obtain ⟨t, hp, ht⟩ := List.infix_iff_prefix_suffix.mp h
    exact ⟨t, (List.mem_tails t b).mpr ht, List.isPrefixOf_iff_prefix.mpr hp⟩

lemma pyIn_false_of_not_mem {c : Char} {pat s : Str} (hc : c ∈ pat) (hs : c ∉ s) :
    pyIn pat s = false := by
  cases h : pyIn pat s with
  | false => rfl
  | true =>
    exact absurd (((pyIn_eq_true_iff pat s).mp h).sublist.subset hc) hs

lemma normAid_some (aid : Str) :
    normAid (some aid)
      = if pyIn "openalex.org/".toList aid = true then some (splitLast '/' aid)
        else some aid := rfl

lemma normOrcid_some (oc : Str) :
    normOrcid (some oc)
      = if pyIn ['/'] oc = true then some (splitLast '/' oc) else some oc := rfl

lemma normAid_idem (a : Option Str) : normAid (normAid a) = normAid a := by
  cases a with
  | none => rfl
  | some aid =>
    by_cases h : pyIn "openalex.org/".toList aid = true
    · have hfalse : pyIn "openalex.org/".toList (splitLast '/' aid) = false :=
        pyIn_false_of_not_mem (by decide) (not_mem_splitLast '/' aid)
      rw [normAid_some, if_pos h, normAid_some, if_neg (by rw [hfalse]; exact Bool.false_ne_true)]
    · rw [normAid_some, if_neg h, normAid_some, if_neg h]

lemma normOrcid_idem (a : Option Str) : normOrcid (normOrcid a) = normOrcid a := by
  cases a with
  | none => rfl
  | some oc =>
    by_cases h : pyIn ['/'] oc = true
    · have hfalse : pyIn ['/'] (splitLast '/' oc) = false :=
        pyIn_false_of_not_mem (List.mem_singleton.mpr rfl) (not_mem_splitLast '/' oc)
      rw [normOrcid_some, if_pos h, normOrcid_some, if_neg (by rw [hfalse]; exact Bool.false_ne_true)]
    · rw [normOrcid_some, if_neg h, normOrcid_some, if_neg h]

/-- C6: `_normalize_identifiers` is idempotent — after one pass the
`author_id`/`orcid` values contain no `"/"`, so a second pass changes
nothing. -/
theorem normalize_identifiers_idempotent (p : MergedProfile) :
    normalize_identifiers (normalize_identifiers p) = normalize_identifiers p := by
  cases p
  simp [normalize_identifiers, normAid_idem, normOrcid_idem]

/-- C9: `_normalize_identifiers` changes at most `author_id` and `orcid`;
every other field of the output equals the corresponding input field. -/
theorem normalize_identifiers_frame (p : MergedProfile) :
    (normalize_identifiers p).name = p.name
      ∧ (normalize_identifiers p).affiliations = p.affiliations
      ∧ (normalize_identifiers p).homepage_url = p.homepage_url
      ∧ (normalize_identifiers p).email = p.email
      ∧ (normalize_identifiers p).h_index = p.h_index
      ∧ (normalize_identifiers p).paper_count = p.paper_count
      ∧ (normalize_identifiers p).citation_count = p.citation_count
      ∧ (normalize_identifiers p).fields_of_study = p.fields_of_study
      ∧ (normalize_identifiers p).profile_image_url = p.profile_image_url
      ∧ (normalize_identifiers p).last_updated = p.last_updated
      ∧ (normalize_identifiers p).sources = p.sources
      ∧ (normalize_identifiers p).confidence_score = p.confidence_score :=
  ⟨rfl, rfl, rfl, rfl, rfl, rfl, rfl, rfl, rfl, rfl, rfl, rfl⟩

/-! ### C8: the affiliation dedup pass leaves no duplicate keys -/

lemma dedupGo_spec (l : List Affiliation) :
    ∀ seen : List (Str × Str × Str),
      (∀ a ∈ dedupGo seen l, affKey a ∉ seen)
        ∧ (dedupGo seen l).Pairwise (fun a b => affKey a ≠ affKey b) := by
  induction l with
  | nil => intro seen; exact ⟨fun a ha => absurd ha (List.not_mem_nil a), List.Pairwise.nil⟩
  | cons a rest ih =>
    intro seen
    by_cases h : affKey a ∈ seen
    · simpa [dedupGo, h] using ih seen
    · have ihx := ih (affKey a :: seen)
      have hmem : ∀ x ∈ dedupGo seen (a :: rest), affKey x ∉ seen := by
        intro x hx
        simp only [dedupGo, if_neg h] at hx
        rcases List.mem_cons.mp hx with rfl | hx2
        · exact h
        · intro hcontra
          exact (ihx.1 x hx2) (List.mem_cons_of_mem _ hcontra)
      refine ⟨hmem, ?_⟩
      simp only [dedupGo, if_neg h]
      refine List.Pairwise.cons ?_ ihx.2
      intro x hx
      have := ihx.1 x hx
      intro hEq
      exact this (hEq ▸ List.mem_cons_self _ _)

/-- C8: the merged affiliation list never contains two entries whose
`(institution_id, institution_name, country)` triples (missing values
treated as the empty string) are equal. -/
theorem merge_affiliations_nodup (name now : Str)
    (results : List (Option PartialRecord)) :
    ((merge_author_data name now results).affiliations).Pairwise
      (fun a b => affKey a ≠ affKey b) := by
  have hval : (merge_author_data name now results).affiliations
      = (if (((results.filterMap id).foldl mergeStep {}).affiliations).isEmpty
          then ((results.filterMap id).foldl mergeStep {}).affiliations
          else dedupAffs (((results.filterMap id).foldl mergeStep {}).affiliations)) := rfl
  rw [hval]
  by_cases he : (((results.filterMap id).foldl mergeStep {}).affiliations).isEmpty = true
  · rw [if_pos he, List.isEmpty_iff.mp he]
    exact List.Pairwise.nil
  · rw [if_neg he]
    exact (dedupGo_spec (((results.filterMap id).foldl mergeStep {}).affiliations) []).2

/-! ### C7/C3: the confidence score -/

lemma rawScore_nonneg (sources : List Str) (pc cc : Int) (orcid : Option Str)
    (h : Option Int) : 0 ≤ rawScore sources pc cc orcid h := by
  unfold rawScore
  have h1 : (0:ℚ) ≤ 0.3 * ((min (numProfileSources sources) 2 : ℕ) : ℚ) := by positivity
  have h2 : (0:ℚ) ≤ if pc ≠ 0 then (0.2:ℚ) else 0 := by split <;> norm_num
  have h3 : (0:ℚ) ≤ if cc ≠ 0 then (0.2:ℚ) else 0 := by split <;> norm_num
  have h4 : (0:ℚ) ≤ if strTruthy orcid = true then (0.1:ℚ) else 0 := by split <;> norm_num
  have h5 : (0:ℚ) ≤ if intTruthy h = true then (0.1:ℚ) else 0 := by split <;> norm_num
  linarith

lemma confidence_mem_unit (sources : List Str) (pc cc : Int) (orcid : Option Str)
    (h : Option Int) :
    0 ≤ confidence sources pc cc orcid h ∧ confidence sources pc cc orcid h ≤ 1 := by
  unfold confidence round2
  have hx0 : 0 ≤ min (rawScore sources pc cc orcid h) 1 :=
    le_min (rawScore_nonneg sources pc cc orcid h) (by norm_num)
  have hx1 : min (rawScore sources pc cc orcid h) 1 ≤ 1 := min_le_right _ _
  constructor
  · apply div_nonneg _ (by norm_num : (0:ℚ) ≤ 100)
    have hr : (0:ℤ) ≤ round (min (rawScore sources pc cc orcid h) 1 * 100) := by
      rw [round_eq, Int.floor_nonneg]
      nlinarith
    exact_mod_cast hr
  · rw [div_le_one (by norm_num : (0:ℚ) < 100)]
    have hr : round (min (rawScore sources pc cc orcid h) 1 * 100) ≤ 100 := by
      rw [round_eq]
      have hlt : min (rawScore sources pc cc orcid h) 1 * 100 + 1/2 < ((101 : ℤ) : ℚ) := by
        push_cast
        nlinarith
      have := Int.floor_lt.mpr hlt
      omega
    exact_mod_cast hr

lemma confidence_zero (sources : List Str) (pc cc : Int) (orcid : Option Str)
    (h : Option Int) (hs : ∀ s ∈ sources, s ∉ authoritative) (hpc : pc = 0)
    (hcc : cc = 0) (ho : orcid = none) (hh : h = none) :
    confidence sources pc cc orcid h = 0 := by
  have hfil : sources.filter (fun s => decide (s ∈ authoritative)) = [] :=
    List.filter_eq_nil_iff.mpr (fun s hmem => by simp [hs s hmem])
  have hnum : numProfileSources sources = 0 := by
    simp [numProfileSources, hfil, pyDedup]
  subst hpc hcc ho hh
  unfold confidence rawScore
  rw [hnum]
  norm_num [strTruthy, intTruthy, round2, round_eq]

/-- C7: every merged profile's confidence score lies in `[0, 1]`, and the
score of a profile with no authoritative sources, zero counts, no orcid and
no h-index is exactly `0`. -/
theorem merge_confidence_bounds (name now : Str)
    (results : List (Option PartialRecord)) (sources : List Str) (pc cc : Int)
    (orcid : Option Str) (h : Option Int) :
    (0 ≤ (merge_author_data name now results).confidence_score
      ∧ (merge_author_data name now results).confidence_score ≤ 1)
    ∧ ((∀ s ∈ sources, s ∉ authoritative) → pc = 0 → cc = 0 → orcid = none →
        h = none → confidence sources pc cc orcid h = 0) := by
  constructor
  · have e : (merge_author_data name now results).confidence_score
        = confidence (pyDedup (((results.filterMap id).foldl mergeStep {}).sources))
            ((pymax (((results.filterMap id).foldl mergeStep {}).paper_counts)).getD 0)
            ((pymax (((results.filterMap id).foldl mergeStep {}).citation_counts)).getD 0)
            (((results.filterMap id).foldl mergeStep {}).orcid)
            (pymax (((results.filterMap id).foldl mergeStep {}).h_indices)) := rfl
    rw [e]
    exact confidence_mem_unit _ _ _ _ _
  · intro hs hpc hcc ho hh
    exact confidence_zero sources pc cc orcid h hs hpc hcc ho hh

/-- Witness for C7 at the all-empty profile arguments. -/
theorem merge_confidence_bounds_witness : confidence [] 0 0 none none = 0 :=
  (merge_confidence_bounds ['n'] [] [] [] 0 0 none none).2
    (by intro s hs; cases hs) rfl rfl rfl rfl

/-- C3 counterexample: a supplied `h_index` of `0` is present but falsy in
Python, so `if merged["h_index"]:` skips the `+0.1` term — the accumulated
score with `h_index = 0` is not `0.1` greater than with `h_index` absent
(the two are equal). -/
theorem rawScore_h_index_zero_cex :
    ¬ rawScore [] 0 0 none (some 0) = rawScore [] 0 0 none none + 0.1 := by
  norm_num [rawScore, numProfileSources, pyDedup, strTruthy, intTruthy]

/-- C3 (amended): the `+0.1` h-index term of the confidence score applies
exactly when `h_index` is present with a non-zero value; for a present
`h_index` of `0` the accumulated (pre-clamp) score is unchanged. -/
theorem rawScore_h_index_term (sources : List Str) (pc cc : Int)
    (orcid : Option Str) (v : Int) :
    (v ≠ 0 → rawScore sources pc cc orcid (some v)
        = rawScore sources pc cc orcid none + 0.1)
    ∧ rawScore sources pc cc orcid (some 0) = rawScore sources pc cc orcid none := by
  constructor
  · intro hv
    unfold rawScore
    have h1 : (if intTruthy (some v) = true then (0.1:ℚ) else 0) = 0.1 := by
      simp [intTruthy, hv]
    have h2 : (if intTruthy (none : Option Int) = true then (0.1:ℚ) else 0) = 0 := by
      simp [intTruthy]
    rw [h1, h2]
    ring
  · unfold rawScore
    have h1 : (if intTruthy (some (0:Int)) = true then (0.1:ℚ) else 0) = 0 := by
      simp [intTruthy]
    have h2 : (if intTruthy (none : Option Int) = true then (0.1:ℚ) else 0) = 0 := by
      simp [intTruthy]
    rw [h1, h2]

/-- Witness for C3 (amended) at a non-zero h-index. -/
theorem rawScore_h_index_term_witness :
    rawScore [] 0 0 none (some 5) = rawScore [] 0 0 none none + 0.1 :=
  (rawScore_h_index_term [] 0 0 none 5).1 (by decide)

/-! ### C1: `search_author` on an all-empty fan-out -/

/-- C1: with every fan-out provider call failing or empty, the merged
profile's `author_id` is `None`, so line 83
(`merged_profile.get("author_id", "").isdigit()`) raises `AttributeError`
instead of reaching FINALIZE: `search_author` does not return the all-empty
profile the spec describes. The merged profile computed just before the
crash is indeed the all-empty one (no sources, zero counts, no orcid,
confidence `0`), which is what FINALIZE would have returned. -/
theorem search_author_all_empty_raises :
    search_author "Ada Example".toList [] (List.replicate 3 none)
        (List.replicate 5 none) (fun _ => none) (fun _ => none) (fun _ => none)
      = Except.error "AttributeError: NoneType object has no attribute isdigit"
    ∧ (merge_author_data "Ada Example".toList [] (List.replicate 8 none)).sources = []
    ∧ (merge_author_data "Ada Example".toList [] (List.replicate 8 none)).paper_count = 0
    ∧ (merge_author_data "Ada Example".toList [] (List.replicate 8 none)).citation_count = 0
    ∧ (merge_author_data "Ada Example".toList [] (List.replicate 8 none)).orcid = none
    ∧ (merge_author_data "Ada Example".toList [] (List.replicate 8 none)).confidence_score = 0 := by
  refine ⟨rfl, rfl, rfl, rfl, rfl, ?_⟩
  show confidence [] 0 0 none none = 0
  exact confidence_zero [] 0 0 none none (by intro s hs; cases hs) rfl rfl rfl rfl
